import Mathlib

/-!
Verification of the MouseFood grid-foraging simulation (`assignment_2.py`).

The embedding below translates the simulation core of the source file:
tiles (`GridSpace`), the agent (`Player`), the grid (`GameGrid`), snapshots
and history (`GameState`, `GameManager`), the scent field
(`calcSmellMatrix`, over the reals, idealising the float arithmetic of the
source), the empty-cell sampling strategies of `randEmptySpace`, and the
decision policy (`smart_mouse`).  Python machine integers are modelled as
`ℤ`, Python `None`-or-string type tags as `Option String`, fallible
operations (list indexing that can raise `IndexError`) as `Option`.
Randomness is modelled by passing the drawn values explicitly: a function
that in the source draws a random number takes that number (or cell) as an
extra argument, and reachability quantifies over all possible draws.
Rendering-only state (colours, pygame surfaces, the cached scent arrays
that the source recomputes from the food set before every use) is omitted.
-/

namespace MouseFood

/-- Grid width constant of the source (`GAME_GRID_WIDTH = 10`). -/
def GAME_GRID_WIDTH : ℤ := 10

/-- Grid height constant of the source (`GAME_GRID_HEIGHT = GAME_GRID_WIDTH`). -/
def GAME_GRID_HEIGHT : ℤ := 10

/-- Total number of spaces (`NUM_SPACES = GAME_GRID_WIDTH * GAME_GRID_HEIGHT`). -/
def NUM_SPACES : ℕ := 100

/-- Energy gained per food (`ENERGY_PER_FOOD = 20`). -/
def ENERGY_PER_FOOD : ℤ := 20

/-- Food needed to end a round (`FOOD_PER_ROUND = 20`). -/
def FOOD_PER_ROUND : ℤ := 20

/-- Maximum player energy (`MAX_ENERGY = 100`). -/
def MAX_ENERGY : ℤ := 100

/-- History capacity (`MAX_SAVED_GAME_STATES = MAX_ENERGY`). -/
def MAX_SAVED_GAME_STATES : ℕ := 100

/-- Food batch placed when the grid is empty (`MAX_NUM_FOOD_ON_GRID = 2`). -/
def MAX_NUM_FOOD_ON_GRID : ℕ := 2

/-- Energy spent per move (`DEFAULT_TERRAIN_DIFFICULTY = 1`). -/
def DEFAULT_TERRAIN_DIFFICULTY : ℤ := 1

/-- Scent accumulation toggle of the source (`SCENT_STACKING = True`). -/
def SCENT_STACKING : Bool := true

/-- Death penalty toggle of the source (`DEATH_PENALTY = True`). -/
def DEATH_PENALTY : Bool := true

/-- Diagonal-scent toggle of the source (`USE_DIAGONAL_SCENT = False`). -/
def USE_DIAGONAL_SCENT : Bool := false

/-- A tile record (`GridSpace.__init__`): occupant kind (`None` in Python,
here `Option.none`), terrain difficulty, and the coordinates.  The pygame
colour field is rendering-only and omitted. -/
structure GridSpace where
  type : Option String
  difficulty : ℤ
  x : ℤ
  y : ℤ
deriving DecidableEq, Repr

/-- `GridSpace(x, y)`: fresh tile with no occupant kind. -/
def GridSpace.init (x y : ℤ) : GridSpace :=
  { type := none, difficulty := DEFAULT_TERRAIN_DIFFICULTY, x := x, y := y }

/-- `GridSpace.setPlayer`. -/
def GridSpace.setPlayer (t : GridSpace) : GridSpace :=
  { t with type := some "Player" }

/-- `GridSpace.setFood`. -/
def GridSpace.setFood (t : GridSpace) : GridSpace :=
  { t with type := some "Food" }

/-- The agent (`Player.__init__`): its tile, food count, energy bounds,
life flag and score.  The cached 3x3 `smell_matrix` is recomputed from the
scent field before every decision in the source (`calcPlayerSense`) and is
modelled as the separate window argument of `smart_mouse`. -/
structure Player where
  tile : GridSpace
  food_eaten : ℤ
  max_energy : ℤ
  energy : ℤ
  alive : Bool
  score : ℤ
deriving DecidableEq, Repr

/-- `Player(x, y)`: spawn alive with full energy at the given cell. -/
def Player.init (x y : ℤ) : Player :=
  { tile := (GridSpace.init x y).setPlayer
    food_eaten := 0
    max_energy := MAX_ENERGY
    energy := MAX_ENERGY
    alive := true
    score := 0 }

/-- `Player.die`: clear the alive flag (the colour change is rendering-only). -/
def Player.die (p : Player) : Player :=
  { p with alive := false }

/-- `Player.useEnergy(amnt)`: subtract the amount, dying when energy drops
below zero. -/
def Player.useEnergy (p : Player) (amnt : ℤ) : Player :=
  let p1 : Player := { p with energy := p.energy - amnt }
  if p1.energy < 0 then p1.die else p1

/-- `Player.move(direction, difficulty)`: when alive, step one cell in the
given direction (0 north, 1 south, 2 west, 3 east), clamped at the grid
boundary, then spend `difficulty` energy; a dead player is left unchanged. -/
def Player.move (p : Player) (direction : ℕ) (difficulty : ℤ) : Player :=
  if p.alive then
    let p1 : Player :=
      if direction = 0 then
        (if 0 < p.tile.y then { p with tile := { p.tile with y := p.tile.y - 1 } } else p)
      else if direction = 1 then
        (if p.tile.y < GAME_GRID_HEIGHT - 1 then
          { p with tile := { p.tile with y := p.tile.y + 1 } } else p)
      else if direction = 2 then
        (if 0 < p.tile.x then { p with tile := { p.tile with x := p.tile.x - 1 } } else p)
      else if direction = 3 then
        (if p.tile.x < GAME_GRID_WIDTH - 1 then
          { p with tile := { p.tile with x := p.tile.x + 1 } } else p)
      else p
    p1.useEnergy difficulty
  else p

/-- `Player.eatFood`: count the food, add the current energy to the score,
then add the food bonus and clamp at the maximum.  Note the source has no
alive guard here. -/
def Player.eatFood (p : Player) : Player :=
  let p1 : Player :=
    { p with food_eaten := p.food_eaten + 1
             score := p.score + p.energy
             energy := p.energy + ENERGY_PER_FOOD }
  if p1.max_energy < p1.energy then { p1 with energy := p1.max_energy } else p1

/-- The grid (`GameGrid.__init__` after its call to `reset`): the dense
occupancy array (a total function, zero outside the board), the sparse list
of occupied tiles, and the agent.  The grid is always the 10x10 square of
the source constants; the cached `smell_grid` is recomputed from
`occupied_spaces` before every use (`calcSmellMatrix`) and is modelled by
the standalone scent-field functions below. -/
structure GameGrid where
  occupied_grid : ℤ → ℤ → ℕ
  occupied_spaces : List GridSpace
  player : Player

/-- `GameGrid.reset` (also the state of a freshly constructed grid):
empty occupancy and a fresh player (`Player()` defaults to cell (0,0)). -/
def GameGrid.reset0 : GameGrid :=
  { occupied_grid := fun _ _ => 0
    occupied_spaces := []
    player := Player.init 0 0 }

/-- `GameGrid.checkValidTile(x, y)`: both coordinates within the board. -/
def checkValidTile (x y : ℤ) : Bool :=
  decide (0 ≤ x ∧ 0 ≤ y ∧ x < GAME_GRID_WIDTH ∧ y < GAME_GRID_HEIGHT)

/-- `GameGrid.addTile(tile)`: append to the sparse list and mark the dense
occupancy array. -/
def GameGrid.addTile (g : GameGrid) (t : GridSpace) : GameGrid :=
  { g with occupied_spaces := g.occupied_spaces ++ [t]
           occupied_grid := fun a b =>
             if a = t.x ∧ b = t.y then 1 else g.occupied_grid a b }

/-- `GameGrid.checkOccupied(x, y)`: valid and marked in the dense array. -/
def GameGrid.checkOccupied (g : GameGrid) (x y : ℤ) : Bool :=
  checkValidTile x y && decide (g.occupied_grid x y = 1)

/-- `GameGrid.getTile(x, y)`: the first tile of `occupied_spaces` at the
given cell, `none` when the cell is invalid or no tile matches. -/
def GameGrid.getTile (g : GameGrid) (x y : ℤ) : Option GridSpace :=
  if checkValidTile x y then
    g.occupied_spaces.find? (fun t => decide (t.x = x ∧ t.y = y))
  else none

/-- `GameGrid.removeTile(x, y)`: when the cell is occupied, clear the dense
mark and delete the matching tile from the sparse list, returning its type
tag; otherwise return `none` and leave the grid unchanged. -/
def GameGrid.removeTile (g : GameGrid) (x y : ℤ) : Option String × GameGrid :=
  if g.checkOccupied x y then
    (match g.occupied_spaces.find? (fun t => decide (t.x = x ∧ t.y = y)) with
      | some t => t.type
      | none => none,
     { g with occupied_grid := fun a b =>
                if a = x ∧ b = y then 0 else g.occupied_grid a b
              occupied_spaces :=
                g.occupied_spaces.eraseP (fun t => decide (t.x = x ∧ t.y = y)) })
  else (none, g)

/-- `GameGrid.movePlayer(direction)`: move the agent (difficulty 1), then
remove any tile at the agent's new cell; if it was food, feed the agent.
The trailing `calcSmellMatrix` call of the source only refreshes the cached
scent array and is modelled by recomputing the field from the food set. -/
def GameGrid.movePlayer (g : GameGrid) (direction : ℕ) : GameGrid :=
  let p := g.player.move direction 1
  let g1 : GameGrid := { g with player := p }
  let r := g1.removeTile p.tile.x p.tile.y
  if r.1 = some "Food" then { r.2 with player := r.2.player.eatFood } else r.2

/-- `GameGrid.genTile(x, y)`: `none` when the grid is full; when the given
position fails the source's bound test (which uses strict `>` against the
width and height, so 10 itself passes) draw a fresh position from
`randEmptySpace` — the drawn cell is the explicit `rand` argument.  The
source performs no occupancy check on an in-bounds given position. -/
def genTile (g : GameGrid) (x y : ℤ) (rand : ℤ × ℤ) : Option GridSpace :=
  if NUM_SPACES ≤ g.occupied_spaces.length then none
  else if x < 0 ∨ GAME_GRID_WIDTH < x ∨ y < 0 ∨ GAME_GRID_HEIGHT < y then
    some (GridSpace.init rand.1 rand.2)
  else some (GridSpace.init x y)

/-- `GameGrid.addFood(x, y)`: generate a tile (with `rand` the cell that
`randEmptySpace` would supply), mark it as food and add it.  The trailing
`calcSmellMatrix` refresh is modelled by recomputing the field on use. -/
def GameGrid.addFood (g : GameGrid) (x y : ℤ) (rand : ℤ × ℤ) : GameGrid :=
  match genTile g x y rand with
  | some t => g.addTile t.setFood
  | none => g

/-- `GameGrid.addPlayer(x, y)`: same placement path with the player tag. -/
def GameGrid.addPlayer (g : GameGrid) (x y : ℤ) (rand : ℤ × ℤ) : GameGrid :=
  match genTile g x y rand with
  | some t => g.addTile t.setPlayer
  | none => g

/-- `GameGrid.checkForFood(x, y)`: occupied and the tile there is food. -/
def GameGrid.checkForFood (g : GameGrid) (x y : ℤ) : Bool :=
  g.checkOccupied x y &&
    (match g.getTile x y with
      | some t => decide (t.type = some "Food")
      | none => false)

/-- `GameGrid.isPlayerNext2Food`: the directions (source order: west 2,
east 3, north 0, south 1) whose orthogonally adjacent cell holds food,
`none` when the list is empty. -/
def GameGrid.isPlayerNext2Food (g : GameGrid) : Option (List ℕ) :=
  let x := g.player.tile.x
  let y := g.player.tile.y
  let food_tiles : List ℕ :=
    (if g.checkForFood (x - 1) y then [2] else []) ++
    (if g.checkForFood (x + 1) y then [3] else []) ++
    (if g.checkForFood x (y - 1) then [0] else []) ++
    (if g.checkForFood x (y + 1) then [1] else [])
  if food_tiles = [] then none else some food_tiles

/-- A snapshot (`GameState.__init__`): the agent's position, energy, food
count and score, and the positions of the food tiles of `occupied_spaces`
in list order.  A snapshot is pure data: it holds no reference to the live
grid, which the pure embedding makes structural. -/
structure GameState where
  player_loc_x : ℤ
  player_loc_y : ℤ
  player_energy : ℤ
  player_food_eaten : ℤ
  player_score : ℤ
  foods_loc : List (ℤ × ℤ)
deriving DecidableEq, Repr

/-- Capture a snapshot from a grid (`GameState.__init__`). -/
def GameState.ofGrid (g : GameGrid) : GameState :=
  { player_loc_x := g.player.tile.x
    player_loc_y := g.player.tile.y
    player_energy := g.player.energy
    player_food_eaten := g.player.food_eaten
    player_score := g.player.score
    foods_loc := (g.occupied_spaces.filter
        (fun t => decide (t.type = some "Food"))).map (fun t => (t.x, t.y)) }

/-- `GameState.restorePlayer`: a fresh player at the saved cell with the
saved energy, food count and score (the alive flag is the fresh default). -/
def GameState.restorePlayer (s : GameState) : Player :=
  { Player.init s.player_loc_x s.player_loc_y with
      energy := s.player_energy
      food_eaten := s.player_food_eaten
      score := s.player_score }

/-- The simulation manager (`GameManager.__init__` fields that the core
uses): the grid, the round counter, the bounded snapshot history, and the
per-round score ledger.  The `paused` flag belongs to the input layer. -/
structure GameManager where
  game_grid : GameGrid
  round : ℤ
  game_states : List GameState
  round_scores : List ℤ

/-- `GameManager.saveGameState`: evict the oldest snapshot when at
capacity, then append a snapshot of the current grid. -/
def GameManager.saveGameState (m : GameManager) : GameManager :=
  let gs := if MAX_SAVED_GAME_STATES ≤ m.game_states.length
            then m.game_states.drop 1 else m.game_states
  { m with game_states := gs ++ [GameState.ofGrid m.game_grid] }

/-- `GameManager.restoreGameState(game_state)`: reset the grid, install the
restored player, and re-add every saved food position.  The random-cell
argument of `addFood` is only consulted for an out-of-range position, which
a captured snapshot never holds, so a dummy cell is passed. -/
def GameManager.restoreGameState (m : GameManager) (s : GameState) : GameManager :=
  let g1 : GameGrid := { GameGrid.reset0 with player := s.restorePlayer }
  let g2 := s.foods_loc.foldl (fun g p => g.addFood p.1 p.2 (0, 0)) g1
  { m with game_grid := g2 }

/-- `GameManager.rewindGameState(num_to_rewind)`: no-op when the history
holds at most one snapshot; clamp the count to the history length minus
one; drop the last `num` snapshots with the Python slice `[:-num]` — which
for `num = 0` is `[:0]`, the empty list — and restore the new last
snapshot, `none` modelling the `IndexError` when that list is empty. -/
def GameManager.rewindGameState (m : GameManager) (num_to_rewind : ℕ) :
    Option GameManager :=
  if m.game_states.length ≤ 1 then some m
  else
    let num := if m.game_states.length ≤ num_to_rewind
               then m.game_states.length - 1 else num_to_rewind
    let gs := if num = 0 then []
              else m.game_states.take (m.game_states.length - num)
    match gs.getLast? with
    | none => none
    | some s => some (GameManager.restoreGameState { m with game_states := gs } s)

/-- `GameManager.endRound`: record the score, reset the grid (fresh player),
advance the round counter, and clear the history (`GameManager.reset`). -/
def GameManager.endRound (m : GameManager) : GameManager :=
  { m with round_scores := m.round_scores ++ [m.game_grid.player.score]
           game_grid := GameGrid.reset0
           round := m.round + 1
           game_states := [] }

/-- `GameManager.checkEndStates`: end the round when enough food was eaten;
otherwise, when the agent died, zero the score (`DEATH_PENALTY` is true in
the source) and end the round. -/
def GameManager.checkEndStates (m : GameManager) : GameManager :=
  if FOOD_PER_ROUND ≤ m.game_grid.player.food_eaten then m.endRound
  else if m.game_grid.player.alive = false then
    (if DEATH_PENALTY then
      GameManager.endRound
        { m with game_grid :=
            { m.game_grid with player := { m.game_grid.player with score := 0 } } }
    else m.endRound)
  else m

/-- `GameManager.logicTick` with its random draws made explicit: when the
grid holds no occupied tile, place `MAX_NUM_FOOD_ON_GRID = 2` foods at the
cells `c1`, `c2` drawn by `randEmptySpace`; move the player in the
direction `d` returned by `smart_mouse` (the scent recomputation and
sensing feed only that decision, so the tick is parametrised by every
direction the policy can return); check end states; save a snapshot. -/
def GameManager.logicTickW (m : GameManager) (c1 c2 : ℤ × ℤ) (d : ℕ) :
    GameManager :=
  let g := if m.game_grid.occupied_spaces = []
           then (m.game_grid.addFood (-1) (-1) c1).addFood (-1) (-1) c2
           else m.game_grid
  let m1 : GameManager := { m with game_grid := g.movePlayer d }
  m1.checkEndStates.saveGameState

/-- `GameManager(GAME_GRID_WIDTH, GAME_GRID_HEIGHT)`: fresh grid, round 0,
empty history and ledger, then one `addFood()` whose random draw is `c0`. -/
def GameManager.initial (c0 : ℤ × ℤ) : GameManager :=
  { game_grid := GameGrid.reset0.addFood (-1) (-1) c0
    round := 0
    game_states := []
    round_scores := [] }

/-- A possible result of `randEmptySpace` on grid `g`: an in-range cell
that the dense occupancy array marks empty (both sampling strategies of the
source return only such cells). -/
def validEmpty (g : GameGrid) (c : ℤ × ℤ) : Prop :=
  0 ≤ c.1 ∧ c.1 < GAME_GRID_WIDTH ∧ 0 ≤ c.2 ∧ c.2 < GAME_GRID_HEIGHT ∧
    g.occupied_grid c.1 c.2 = 0

/-- Managers reachable from construction by game ticks, over every outcome
of the random draws: the initial placement cell, the replenishment cells
(constrained to possible `randEmptySpace` results when they are consulted)
and every direction `d` the decision policy can output (`smart_mouse`
always returns a value below 4; the relation allows every natural, which
only widens it). -/
inductive Reachable : GameManager → Prop
  | init (c0 : ℤ × ℤ) (h : validEmpty GameGrid.reset0 c0) :
      Reachable (GameManager.initial c0)
  | step (m : GameManager) (c1 c2 : ℤ × ℤ) (d : ℕ) (hm : Reachable m)
      (h1 : m.game_grid.occupied_spaces = [] → validEmpty m.game_grid c1)
      (h2 : m.game_grid.occupied_spaces = [] →
        validEmpty (m.game_grid.addFood (-1) (-1) c1) c2) :
      Reachable (m.logicTickW c1 c2 d)

/-- `simple_mouse`: `random.choice(range(0, 4))`, the draw `r` mapped onto
the four directions. -/
def simple_mouse (r : ℕ) : ℕ := r % 4

/-- `random.choice(lst)` with the draw `r` made explicit: the entry at
index `r` modulo the length (every list this is applied to is non-empty,
so the default is never returned). -/
def pyChoice (l : List ℕ) (r : ℕ) : ℕ := l.getD (r % l.length) 0

/-- `smart_mouse(scent_matrix)`: return a random direction when the window
is all zeros; otherwise read the four directional magnitudes (centre-edge
cells, or full row/column sums under `USE_DIAGONAL_SCENT`), then — before
any magnitude comparison — return a random adjacent-food direction when
`isPlayerNext2Food` reports one (the source reads the global manager's
grid; here the grid is the explicit argument `g`); otherwise choose among
the indices attaining the maximal magnitude.  `r` is the random draw of
whichever single `random.choice` call executes.  The scent values are
modelled over `ℚ`; only order and equality of the (rounded) values matter
to the policy. -/
def smart_mouse (scent_matrix : Fin 3 → Fin 3 → ℚ) (g : GameGrid) (r : ℕ) : ℕ :=
  if ∀ i j, scent_matrix i j = 0 then simple_mouse r
  else
    let north : ℚ := if USE_DIAGONAL_SCENT then
        scent_matrix 0 0 + scent_matrix 0 1 + scent_matrix 0 2
      else scent_matrix 0 1
    let south : ℚ := if USE_DIAGONAL_SCENT then
        scent_matrix 2 0 + scent_matrix 2 1 + scent_matrix 2 2
      else scent_matrix 2 1
    let west : ℚ := if USE_DIAGONAL_SCENT then
        scent_matrix 0 0 + scent_matrix 1 0 + scent_matrix 2 0
      else scent_matrix 1 0
    let east : ℚ := if USE_DIAGONAL_SCENT then
        scent_matrix 0 2 + scent_matrix 1 2 + scent_matrix 2 2
      else scent_matrix 1 2
    let movement_array : List ℚ := [north, south, west, east]
    match g.isPlayerNext2Food with
    | some nearby_food => pyChoice nearby_food r
    | none =>
      let mx := max (max (max north south) west) east
      let indexes :=
        (movement_array.enum.filter (fun p => decide (p.2 = mx))).map Prod.fst
      pyChoice indexes r

/-- The cells `(i, j)` visited by the scan loops of `randEmptySpace`, in
row-major source order (`for i in range(height): for j in range(width)`). -/
def scanCells : List (ℤ × ℤ) :=
  (List.range 10).flatMap (fun i => (List.range 10).map (fun j => ((i : ℤ), (j : ℤ))))

/-- One scan loop of `randEmptySpace`: walk the cells, and at each empty
cell return it when `count >= choice`, else increment `count`. -/
def scanEmptyAux (g : GameGrid) : List (ℤ × ℤ) → ℕ → ℕ → Option (ℤ × ℤ)
  | [], _, _ => none
  | c :: rest, count, choice =>
    if g.occupied_grid c.1 c.2 = 0 then
      (if choice ≤ count then some c else scanEmptyAux g rest (count + 1) choice)
    else scanEmptyAux g rest count choice

/-- The counting-scan strategy of `randEmptySpace` (taken when the grid is
at least half full): `choice = random.randint(0, empty_left)` is the
explicit draw, and the two identical scan loops of the source are the
doubled cell list; `none` models the `exit(9)` fall-through. -/
def randEmptySpaceScan (g : GameGrid) (choice : ℕ) : Option (ℤ × ℤ) :=
  scanEmptyAux g (scanCells ++ scanCells) 0 choice

/-- The rejection-sampling strategy of `randEmptySpace` (taken when the
grid is under half full): keep drawing uniform cells until an empty one
appears.  The argument is the stream of draws; `none` models a stream that
never hits an empty cell (the loop would not terminate). -/
def randEmptySpaceReject (g : GameGrid) : List (ℤ × ℤ) → Option (ℤ × ℤ)
  | [] => none
  | c :: rest =>
    if g.occupied_grid c.1 c.2 = 0 then some c else randEmptySpaceReject g rest

/-- Python `round(v, 5)` idealised over the reals as half-up rounding to
five decimal digits.  Python uses round-half-to-even on binary floats; the
two differ only at exact ties, which none of the values reasoned about
below attains, and every theorem using `round5` depends only on bounds that
hold for either tie-breaking rule. -/
noncomputable def round5 (v : ℝ) : ℝ :=
  (Int.floor (v * 100000 + 1 / 2) : ℝ) / 100000

/-- One iteration of the outer loop of `GameGrid.calcSmellMatrix` for the
occupied tile `t`: first `smell_grid[t.x][t.y] = 1`, then for every cell
`(j, i)` of the board the contribution `1 / (dist + 1)` rounded to five
digits, where `dist = euclidean((i, j), (t.x, t.y))` — note the source
pairs the loop indices as `(i, j)` against `(t.x, t.y)` while writing to
`smell_grid[j][i]`, so with `a = j`, `b = i` the distance is
`sqrt((b - t.x)^2 + (a - t.y)^2)`.  In stacking mode the cell
`(t.x, t.y)` is assigned the term while every other cell accumulates it;
in max mode a cell keeps the larger of its value and the term. -/
noncomputable def smellStep (g : ℤ → ℤ → ℝ) (t : GridSpace) : ℤ → ℤ → ℝ :=
  fun a b =>
    if 0 ≤ a ∧ a < GAME_GRID_WIDTH ∧ 0 ≤ b ∧ b < GAME_GRID_HEIGHT then
      if SCENT_STACKING = false then
        (if (if a = t.x ∧ b = t.y then (1 : ℝ) else g a b) <
            round5 (1 / (Real.sqrt (((b : ℝ) - (t.x : ℝ)) ^ 2 +
              ((a : ℝ) - (t.y : ℝ)) ^ 2) + 1)) then
          round5 (1 / (Real.sqrt (((b : ℝ) - (t.x : ℝ)) ^ 2 +
            ((a : ℝ) - (t.y : ℝ)) ^ 2) + 1))
        else (if a = t.x ∧ b = t.y then (1 : ℝ) else g a b))
      else
        (if a = t.x ∧ b = t.y then
          round5 (1 / (Real.sqrt (((b : ℝ) - (t.x : ℝ)) ^ 2 +
            ((a : ℝ) - (t.y : ℝ)) ^ 2) + 1))
        else
          (if a = t.x ∧ b = t.y then (1 : ℝ) else g a b) +
            round5 (1 / (Real.sqrt (((b : ℝ) - (t.x : ℝ)) ^ 2 +
              ((a : ℝ) - (t.y : ℝ)) ^ 2) + 1)))
    else (if a = t.x ∧ b = t.y then (1 : ℝ) else g a b)

/-- `GameGrid.calcSmellMatrix`: fold the per-tile pass over the occupied
tiles in list order, starting from the zero field. -/
noncomputable def calcSmellMatrix (tiles : List GridSpace) : ℤ → ℤ → ℝ :=
  tiles.foldl smellStep (fun _ _ => 0)

/-- C6: feeding a living agent counts the food, adds the pre-feed energy to
the score, then adds `ENERGY_PER_FOOD` clamped at `max_energy`; the record
equality shows every other field (tile, alive flag, energy cap) unchanged. -/
theorem c6_feed_effect (p : Player) (h : p.alive = true) :
    p.eatFood =
      { p with food_eaten := p.food_eaten + 1
               score := p.score + p.energy
               energy := min (p.energy + ENERGY_PER_FOOD) p.max_energy } := by
  simp only [Player.eatFood]
  split_ifs with hc
  · rw [min_eq_right hc.le]
  · rw [min_eq_left (not_lt.mp hc)]

/-- Witness for C6 at a freshly spawned player. -/
theorem c6_feed_effect_witness :
    Player.eatFood (Player.init 0 0) =
      { Player.init 0 0 with
          food_eaten := (Player.init 0 0).food_eaten + 1
          score := (Player.init 0 0).score + (Player.init 0 0).energy
          energy := min ((Player.init 0 0).energy + ENERGY_PER_FOOD)
            (Player.init 0 0).max_energy } :=
  c6_feed_effect (Player.init 0 0) rfl

/-- A dead agent, used to probe the unguarded action methods. -/
def deadPlayer : Player := { Player.init 0 0 with alive := false }

/-- C7 counterexample: the claim says every action method is a no-op on a
dead agent, but `eatFood` and `useEnergy` carry no alive guard in the
source — both visibly mutate this dead agent. -/
theorem c7_counterexample :
    deadPlayer.alive = false ∧
      deadPlayer.eatFood ≠ deadPlayer ∧ deadPlayer.useEnergy 1 ≠ deadPlayer := by
  refine ⟨rfl, ?_, ?_⟩ <;> decide

/-- C7 amended: `move` is alive-guarded, so once dead the agent's position,
energy, food count, score and life flag are unchanged by any movement
request; `eatFood` and `useEnergy`, however, lack the guard and do mutate
a dead agent when called. -/
theorem c7_dead_move_noop (p : Player) (d : ℕ) (c : ℤ) (h : p.alive = false) :
    p.move d c = p := by
  simp [Player.move, h]

/-- Witness for the amended C7 on a concrete dead agent. -/
theorem c7_dead_move_noop_witness : deadPlayer.move 0 1 = deadPlayer :=
  c7_dead_move_noop deadPlayer 0 1 rfl

/-- A concrete snapshot for history experiments. -/
def snapA : GameState :=
  { player_loc_x := 0, player_loc_y := 0, player_energy := 100
    player_food_eaten := 0, player_score := 0, foods_loc := [] }

/-- A manager whose history holds two snapshots. -/
def twoSnapManager : GameManager :=
  { game_grid := GameGrid.reset0, round := 0
    game_states := [snapA, snapA], round_scores := [] }

/-- C2: with two or more snapshots in the history, `rewindGameState(0)`
faults: the Python slice `game_states[:-0]` empties the history and the
subsequent `game_states[-1]` raises `IndexError` (the `none` here), while
with at most one snapshot the call is the no-op the claim describes. -/
theorem c2_rewind_zero_faults :
    twoSnapManager.rewindGameState 0 = none ∧
      GameManager.rewindGameState
          { twoSnapManager with game_states := [snapA] } 0 =
        some { twoSnapManager with game_states := [snapA] } := by
  exact ⟨rfl, rfl⟩

/-- C4: placement performs no occupancy check — `addFood(2, 2)` on a grid
already holding food at (2, 2) appends a second tile at the same cell
(the `randEmptySpace` draw, here (7, 7), is never consulted) — and the
bound test of `genTile` uses strict `>` against the width, so the
out-of-range request (10, 5) is accepted verbatim. -/
theorem c4_placement_no_check :
    (((GameGrid.reset0.addFood 2 2 (7, 7)).addFood 2 2 (7, 7)).occupied_spaces.map
        (fun t => (t.x, t.y))) = [(2, 2), (2, 2)] ∧
      genTile GameGrid.reset0 10 5 (0, 0) = some (GridSpace.init 10 5) := by
  exact ⟨rfl, rfl⟩

/-- A grid whose agent stands at (5, 5) with food directly north at (5, 4). -/
def foodNorthGrid : GameGrid :=
  GameGrid.addFood { GameGrid.reset0 with player := Player.init 5 5 } 5 4 (0, 0)

/-- C1 counterexample: with food directly north but an all-zero sensed
window, `smart_mouse` takes the all-zero branch first and returns the
random direction — draw 1 yields South (1), not North (0), even though
`isPlayerNext2Food` reports exactly the north direction. -/
theorem c1_counterexample :
    foodNorthGrid.isPlayerNext2Food = some [0] ∧
      smart_mouse (fun _ _ => 0) foodNorthGrid 1 = 1 := by
  exact ⟨by decide, by decide⟩

/-- C1 amended: the all-zero random-walk fallback fires before the
adjacency override, so the override only governs windows that are not all
zero: whenever some window cell is non-zero and the tile directly north is
the only orthogonally adjacent food, `smart_mouse` returns North for every
random draw. -/
theorem c1_adjacency_override (scent : Fin 3 → Fin 3 → ℚ) (g : GameGrid)
    (r : ℕ) (h1 : ¬ ∀ i j, scent i j = 0)
    (h2 : g.isPlayerNext2Food = some [0]) :
    smart_mouse scent g r = 0 := by
  simp only [smart_mouse, if_neg h1, h2, pyChoice]
  simp [Nat.mod_one]

/-- Witness for the amended C1: a non-zero window over the concrete grid
with food only to the north. -/
theorem c1_adjacency_override_witness :
    smart_mouse (fun _ _ => 1) foodNorthGrid 5 = 0 :=
  c1_adjacency_override (fun _ _ => 1) foodNorthGrid 5 (by decide) (by decide)

/-- The scan loop returns the entry of the filtered (empty-cell) list at
index `choice - count` (Nat subtraction: a `count` already past `choice`
returns the first empty cell). -/
theorem scanEmptyAux_eq (g : GameGrid) (l : List (ℤ × ℤ)) (count choice : ℕ) :
    scanEmptyAux g l count choice =
      (l.filter (fun c => decide (g.occupied_grid c.1 c.2 = 0)))[choice - count]? := by
  induction l generalizing count with
  | nil => simp [scanEmptyAux]
  | cons c rest ih =>
    simp only [scanEmptyAux]
    by_cases hempty : g.occupied_grid c.1 c.2 = 0
    · rw [if_pos hempty, List.filter_cons_of_pos (by simpa using hempty)]
      by_cases hle : choice ≤ count
      · rw [if_pos hle, Nat.sub_eq_zero_of_le hle]
        simp
      · rw [if_neg hle, ih (count + 1)]
        have h1 : choice - count = (choice - (count + 1)) + 1 := by omega
        rw [h1]
        simp
    · rw [if_neg hempty, List.filter_cons_of_neg (by simpa using hempty), ih count]

/-- A 10x10 grid whose rows 0-4 are fully occupied (50 tiles), putting the
occupancy at exactly half so that `randEmptySpace` takes the counting-scan
branch; the agent sits at (9, 9). -/
def halfFullGrid : GameGrid :=
  { occupied_grid := fun a b => if 0 ≤ a ∧ a < 5 ∧ 0 ≤ b ∧ b < 10 then 1 else 0
    occupied_spaces := (scanCells.filter (fun c => decide (c.1 < 5))).map
      (fun c => (GridSpace.init c.1 c.2).setFood)
    player := Player.init 9 9 }

/-- C5 counterexample: on this half-full grid (so the source takes the
counting-scan strategy) there are 50 empty cells, but the draw
`random.randint(0, empty_left)` ranges over 51 equally likely values and
both draw 0 and draw 50 return the scan-order-first empty cell (5, 0):
among the 51 outcomes, (5, 0) occurs twice and (5, 1) once, so the induced
distribution is not the uniform distribution over empty cells and differs
from the rejection strategy's. -/
theorem c5_counterexample :
    50 ≤ halfFullGrid.occupied_spaces.length ∧
      ((List.range 51).map (fun c => randEmptySpaceScan halfFullGrid c)).count
          (some (5, 0)) = 2 ∧
      ((List.range 51).map (fun c => randEmptySpaceScan halfFullGrid c)).count
          (some (5, 1)) = 1 := by
  refine ⟨by decide, by decide, by decide⟩

/-- C5 amended: the counting-scan strategy returns the empty cell at index
`choice mod n` of the row-major scan order, where `n` is the number of
empty cells and `choice` is drawn uniformly from the `n + 1` values
`0, ..., n`; hence the first empty cell carries probability `2 / (n + 1)`
and the strategy matches the rejection strategy's uniform distribution
only when a single cell is empty. -/
theorem c5_scan_mod (g : GameGrid) (n choice : ℕ)
    (hn : (scanCells.filter (fun c => decide (g.occupied_grid c.1 c.2 = 0))).length = n)
    (h1 : 1 ≤ n) (hc : choice ≤ n) :
    randEmptySpaceScan g choice =
      (scanCells.filter (fun c => decide (g.occupied_grid c.1 c.2 = 0)))[choice % n]? := by
  unfold randEmptySpaceScan
  rw [scanEmptyAux_eq, List.filter_append, Nat.sub_zero]
  rcases eq_or_lt_of_le hc with heq | hlt
  · rw [heq, Nat.mod_self, List.getElem?_append_right (le_of_eq hn)]
    rw [hn]
    simp
  · rw [Nat.mod_eq_of_lt hlt, List.getElem?_append_left (by omega)]

/-- Witness for the amended C5: on the half-full grid the wrapped draw 50
returns the first empty cell. -/
theorem c5_scan_mod_witness :
    randEmptySpaceScan halfFullGrid 50 = some (5, 0) := by
  have h := c5_scan_mod halfFullGrid 50 50 (by decide) (by decide) (by decide)
  rw [h]
  decide

/-- Rounding a value of at most one half to five digits stays below one
(robust to the tie-breaking rule, since it only uses `floor x ≤ x`). -/
theorem round5_lt_one_of_le_half (v : ℝ) (h : v ≤ 1 / 2) : round5 v < 1 := by
  unfold round5
  have h1 : (Int.floor (v * 100000 + 1 / 2) : ℝ) ≤ v * 100000 + 1 / 2 :=
    Int.floor_le _
  rw [div_lt_one (by norm_num : (0 : ℝ) < 100000)]
  nlinarith

/-- Rounding the exact value one to five digits returns one. -/
theorem round5_one : round5 1 = 1 := by
  unfold round5
  have h : Int.floor ((1 : ℝ) * 100000 + 1 / 2) = 100000 := by
    apply Int.floor_eq_iff.mpr
    constructor <;> norm_num
  rw [h]
  norm_num

/-- C3 counterexample: in stacking mode, a single food at (0, 1) — a cell
off the main diagonal — receives not 1 but `round5 (1 / (sqrt 2 + 1))`
(about 0.41421) as its own field value: the source's self-cell assignment
measures the distance between the transposed loop coordinates and the food,
which vanishes only on the diagonal. -/
theorem c3_counterexample :
    calcSmellMatrix [(GridSpace.init 0 1).setFood] 0 1 ≠ 1 := by
  have hne : calcSmellMatrix [(GridSpace.init 0 1).setFood] 0 1 =
      round5 (1 / (Real.sqrt 2 + 1)) := by
    simp only [calcSmellMatrix, List.foldl, smellStep, GridSpace.setFood,
      GridSpace.init]
    norm_num [GAME_GRID_WIDTH, GAME_GRID_HEIGHT, SCENT_STACKING]
  rw [hne]
  have hsqrt : (1 : ℝ) ≤ Real.sqrt 2 := by
    rw [show (1 : ℝ) = Real.sqrt 1 from Real.sqrt_one.symm]
    exact Real.sqrt_le_sqrt (by norm_num)
  have hv : 1 / (Real.sqrt 2 + 1) ≤ 1 / 2 := by
    rw [div_le_div_iff₀ (by linarith) (by norm_num)]
    linarith
  exact ne_of_lt (round5_lt_one_of_le_half _ hv)

/-- C3 amended: in stacking mode the field value at the cell of the food
processed last is set — not accumulated — to the rounded self term
`round5 (1 / (sqrt ((y - x)^2 + (x - y)^2) + 1))`, whose distance is the
coordinate-swapped one of the source and vanishes only on the diagonal, so
the value equals 1 exactly when `x = y`; foods processed after a given food
accumulate their contributions onto its cell, so for earlier foods the
value also depends on the later sources. -/
theorem c3_last_food_self_term (L : List GridSpace) (t : GridSpace)
    (hx : 0 ≤ t.x) (hx2 : t.x < GAME_GRID_WIDTH)
    (hy : 0 ≤ t.y) (hy2 : t.y < GAME_GRID_HEIGHT) :
    calcSmellMatrix (L ++ [t]) t.x t.y =
      round5 (1 / (Real.sqrt (((t.y : ℝ) - (t.x : ℝ)) ^ 2 +
        ((t.x : ℝ) - (t.y : ℝ)) ^ 2) + 1)) ∧
    (t.x = t.y → calcSmellMatrix (L ++ [t]) t.x t.y = 1) := by
  have hmain : calcSmellMatrix (L ++ [t]) t.x t.y =
      round5 (1 / (Real.sqrt (((t.y : ℝ) - (t.x : ℝ)) ^ 2 +
        ((t.x : ℝ) - (t.y : ℝ)) ^ 2) + 1)) := by
    unfold calcSmellMatrix
    rw [List.foldl_append]
    simp only [List.foldl]
    rw [smellStep]
    rw [if_pos ⟨hx, hx2, hy, hy2⟩]
    simp [SCENT_STACKING]
  refine ⟨hmain, fun hxy => ?_⟩
  rw [hmain, hxy]
  norm_num [round5_one]

/-- Witness for the amended C3: a single food on the diagonal cell (2, 2)
does get field value exactly 1 at its own cell. -/
theorem c3_last_food_self_term_witness :
    calcSmellMatrix [(GridSpace.init 2 2).setFood] 2 2 = 1 :=
  (c3_last_food_self_term [] ((GridSpace.init 2 2).setFood)
    (by decide) (by decide) (by decide) (by decide)).2 rfl

/-- The player-field invariant maintained across ticks: non-negative
energy while alive, energy within the cap, non-negative score and food
count, and the untouched energy cap. -/
def PInv (p : Player) : Prop :=
  (p.alive = true → 0 ≤ p.energy) ∧ p.energy ≤ MAX_ENERGY ∧
    0 ≤ p.score ∧ 0 ≤ p.food_eaten ∧ p.max_energy = MAX_ENERGY

/-- A freshly spawned player satisfies the invariant. -/
theorem PInv_fresh (x y : ℤ) : PInv (Player.init x y) := by
  refine ⟨fun _ => ?_, ?_, ?_, ?_, rfl⟩ <;> norm_num [Player.init, MAX_ENERGY]

/-- A dead player is unchanged by `move` (the alive guard of the source). -/
theorem move_dead (p : Player) (d : ℕ) (c : ℤ) (h : p.alive = false) :
    p.move d c = p := by
  simp [Player.move, h]

/-- Field effect of a living player's unit-cost move: energy drops by one,
survival is exactly non-negativity of the new energy, and the counters are
untouched. -/
theorem move_one_char (p : Player) (d : ℕ) (h : p.alive = true) :
    (p.move d 1).energy = p.energy - 1 ∧
    ((p.move d 1).alive = true ↔ 0 ≤ p.energy - 1) ∧
    (p.move d 1).score = p.score ∧
    (p.move d 1).food_eaten = p.food_eaten ∧
    (p.move d 1).max_energy = p.max_energy := by
  simp only [Player.move, Player.useEnergy, Player.die, h, if_true]
  split_ifs <;> simp_all <;> omega

/-- Field effect of `eatFood` on an arbitrary player. -/
theorem eatFood_char (p : Player) :
    p.eatFood.energy = min (p.energy + ENERGY_PER_FOOD) p.max_energy ∧
    p.eatFood.alive = p.alive ∧
    p.eatFood.score = p.score + p.energy ∧
    p.eatFood.food_eaten = p.food_eaten + 1 ∧
    p.eatFood.max_energy = p.max_energy := by
  simp only [Player.eatFood]
  split_ifs with hc <;> simp_all <;> omega

/-- A unit move that leaves the player alive preserves the invariant. -/
theorem PInv_move_alive (p : Player) (d : ℕ) (hp : PInv p)
    (ha : (p.move d 1).alive = true) : PInv (p.move d 1) := by
  by_cases h : p.alive = true
  · obtain ⟨he, hal, hs, hf, hm⟩ := move_one_char p d h
    obtain ⟨hp1, hp2, hp3, hp4, hp5⟩ := hp
    exact ⟨fun _ => by rw [he]; exact hal.mp ha, by rw [he]; omega,
      by rw [hs]; exact hp3, by rw [hf]; exact hp4, by rw [hm]; exact hp5⟩
  · rw [move_dead p d 1 (by simpa using h)]
    exact hp

/-- Feeding a living player that satisfies the invariant preserves it. -/
theorem PInv_eat_alive (p : Player) (hp : PInv p) (ha : p.alive = true) :
    PInv p.eatFood := by
  obtain ⟨he, hal, hs, hf, hm⟩ := eatFood_char p
  obtain ⟨hp1, hp2, hp3, hp4, hp5⟩ := hp
  have h0 : 0 ≤ p.energy := hp1 ha
  refine ⟨fun _ => ?_, ?_, ?_, ?_, ?_⟩
  · rw [he, hp5]
    simp only [MAX_ENERGY, ENERGY_PER_FOOD] at *
    omega
  · rw [he, hp5]
    simp only [MAX_ENERGY, ENERGY_PER_FOOD] at *
    omega
  · rw [hs]; omega
  · rw [hf]; omega
  · rw [hm]; exact hp5

/-- `removeTile` never touches the player. -/
theorem removeTile_player (g : GameGrid) (x y : ℤ) :
    (g.removeTile x y).2.player = g.player := by
  unfold GameGrid.removeTile
  split_ifs <;> rfl

/-- The player after `movePlayer` is the moved player, possibly fed. -/
theorem movePlayer_player_cases (g : GameGrid) (d : ℕ) :
    (g.movePlayer d).player = g.player.move d 1 ∨
    (g.movePlayer d).player = (g.player.move d 1).eatFood := by
  simp only [GameGrid.movePlayer]
  split_ifs with h
  · right
    simp [removeTile_player]
  · left
    simp [removeTile_player]

/-- `addFood` never touches the player. -/
theorem addFood_player (g : GameGrid) (x y : ℤ) (r : ℤ × ℤ) :
    (g.addFood x y r).player = g.player := by
  unfold GameGrid.addFood
  cases genTile g x y r <;> simp [GameGrid.addTile]

/-- `checkEndStates` yields a player satisfying the invariant provided the
incoming player does whenever it is alive (a dead or finished player is
replaced by a fresh one when the round ends). -/
theorem PInv_checkEndStates (m : GameManager)
    (h : m.game_grid.player.alive = true → PInv m.game_grid.player) :
    PInv m.checkEndStates.game_grid.player := by
  unfold GameManager.checkEndStates
  split_ifs with h1 h2 h3
  · exact PInv_fresh 0 0
  · exact PInv_fresh 0 0
  · exact PInv_fresh 0 0
  · exact h (by simpa using h2)

/-- One tick preserves the player invariant, for every random outcome. -/
theorem PInv_tick (m : GameManager) (c1 c2 : ℤ × ℤ) (d : ℕ)
    (h : PInv m.game_grid.player) :
    PInv (m.logicTickW c1 c2 d).game_grid.player := by
  unfold GameManager.logicTickW
  have hgp : (if m.game_grid.occupied_spaces = []
      then (m.game_grid.addFood (-1) (-1) c1).addFood (-1) (-1) c2
      else m.game_grid).player = m.game_grid.player := by
    split_ifs <;> simp [addFood_player]
  set g := if m.game_grid.occupied_spaces = []
      then (m.game_grid.addFood (-1) (-1) c1).addFood (-1) (-1) c2
      else m.game_grid with hg
  show PInv (GameManager.checkEndStates _).saveGameState.game_grid.player
  have hsave : ∀ mm : GameManager, mm.saveGameState.game_grid = mm.game_grid :=
    fun mm => rfl
  rw [hsave]
  apply PInv_checkEndStates
  intro ha
  simp only at ha ⊢
  rcases movePlayer_player_cases g d with hcase | hcase
  · rw [hcase] at ha ⊢
    exact PInv_move_alive _ _ (hgp ▸ h) ha
  · rw [hcase] at ha ⊢
    have ha2 : (g.player.move d 1).alive = true := by
      rw [← (eatFood_char (g.player.move d 1)).2.1]
      exact ha
    exact PInv_eat_alive _ (PInv_move_alive _ _ (hgp ▸ h) ha2) ha2

/-- Every reachable manager satisfies the player invariant. -/
theorem reachable_PInv (m : GameManager) (h : Reachable m) :
    PInv m.game_grid.player := by
  induction h with
  | init c0 hc =>
    show PInv (GameGrid.reset0.addFood (-1) (-1) c0).player
    rw [addFood_player]
    exact PInv_fresh 0 0
  | step m c1 c2 d hm h1 h2 ih =>
    exact PInv_tick m c1 c2 d ih

/-- The agent's default spawn cell is a legitimate `randEmptySpace` draw on
a fresh grid. -/
theorem validEmpty_reset0_00 : validEmpty GameGrid.reset0 (0, 0) := by
  norm_num [validEmpty, GameGrid.reset0, GAME_GRID_WIDTH, GAME_GRID_HEIGHT]

/-- C8: in every reachable state, a living agent's energy lies within
`[0, MAX_ENERGY]` and the score and food count are non-negative; moreover
energy only goes negative in the very energy-spend that kills the agent
(whenever `useEnergy` leaves the energy negative, it has also cleared the
alive flag). -/
theorem c8_energy_score_invariant :
    (∀ m, Reachable m →
      ((m.game_grid.player.alive = true →
          0 ≤ m.game_grid.player.energy ∧
            m.game_grid.player.energy ≤ MAX_ENERGY) ∧
        0 ≤ m.game_grid.player.score ∧ 0 ≤ m.game_grid.player.food_eaten)) ∧
    (∀ (p : Player) (c : ℤ), p.alive = true → (p.useEnergy c).energy < 0 →
      (p.useEnergy c).alive = false) := by
  constructor
  · intro m hm
    obtain ⟨h1, h2, h3, h4, _⟩ := reachable_PInv m hm
    exact ⟨fun ha => ⟨h1 ha, h2⟩, h3, h4⟩
  · intro p c _ hneg
    simp only [Player.useEnergy] at *
    split_ifs at * with hcond
    · rfl
    · exact absurd hneg (by simp_all)

/-- Witness for C8 at the initial manager with draw (0, 0), plus a
concrete fatal energy spend. -/
theorem c8_energy_score_invariant_witness :
    (((GameManager.initial (0, 0)).game_grid.player.alive = true →
        0 ≤ (GameManager.initial (0, 0)).game_grid.player.energy ∧
          (GameManager.initial (0, 0)).game_grid.player.energy ≤ MAX_ENERGY) ∧
      0 ≤ (GameManager.initial (0, 0)).game_grid.player.score ∧
        0 ≤ (GameManager.initial (0, 0)).game_grid.player.food_eaten) ∧
    ((Player.init 0 0).useEnergy 101).alive = false :=
  ⟨c8_energy_score_invariant.1 (GameManager.initial (0, 0))
      (Reachable.init (0, 0) validEmpty_reset0_00),
    c8_energy_score_invariant.2 (Player.init 0 0) 101 rfl (by decide)⟩

/-- `addFood` only ever adds a food-tagged tile. -/
theorem addFood_allFood (g : GameGrid) (x y : ℤ) (r : ℤ × ℤ)
    (h : ∀ t ∈ g.occupied_spaces, t.type = some "Food") :
    ∀ t ∈ (g.addFood x y r).occupied_spaces, t.type = some "Food" := by
  unfold GameGrid.addFood
  cases genTile g x y r with
  | none => exact h
  | some t0 =>
    intro t ht
    simp only [GameGrid.addTile, List.mem_append, List.mem_singleton] at ht
    rcases ht with ht | rfl
    · exact h t ht
    · rfl

/-- `movePlayer` only removes tiles, never adds. -/
theorem movePlayer_occupied_sub (g : GameGrid) (d : ℕ) :
    ∀ t ∈ (g.movePlayer d).occupied_spaces, t ∈ g.occupied_spaces := by
  simp only [GameGrid.movePlayer]
  split_ifs with h
  all_goals
    intro t ht
    simp only [GameGrid.removeTile] at ht
    split_ifs at ht
    · exact (List.eraseP_sublist _).mem ht
    · exact ht

/-- `checkEndStates` either clears the occupied list (round end) or leaves
it untouched. -/
theorem checkEndStates_occupied (m : GameManager) :
    m.checkEndStates.game_grid.occupied_spaces = [] ∨
    m.checkEndStates.game_grid.occupied_spaces = m.game_grid.occupied_spaces := by
  unfold GameManager.checkEndStates GameManager.endRound
  split_ifs <;> simp [GameGrid.reset0]

/-- Every occupied tile of a reachable state is food: the agent itself is
never recorded in the occupancy list. -/
theorem reachable_allFood (m : GameManager) (h : Reachable m) :
    ∀ t ∈ m.game_grid.occupied_spaces, t.type = some "Food" := by
  induction h with
  | init c0 hc =>
    show ∀ t ∈ (GameGrid.reset0.addFood (-1) (-1) c0).occupied_spaces, _
    exact addFood_allFood _ _ _ _ (by simp [GameGrid.reset0])
  | step m c1 c2 d hm h1 h2 ih =>
    simp only [GameManager.logicTickW]
    have hrep : ∀ t ∈ (if m.game_grid.occupied_spaces = []
        then (m.game_grid.addFood (-1) (-1) c1).addFood (-1) (-1) c2
        else m.game_grid).occupied_spaces, t.type = some "Food" := by
      split_ifs with hcond
      · exact addFood_allFood _ _ _ _ (addFood_allFood _ _ _ _ (hcond ▸ ih))
      · exact ih
    have hmove : ∀ t ∈ ((if m.game_grid.occupied_spaces = []
        then (m.game_grid.addFood (-1) (-1) c1).addFood (-1) (-1) c2
        else m.game_grid).movePlayer d).occupied_spaces, t.type = some "Food" :=
      fun t ht => hrep t (movePlayer_occupied_sub _ d t ht)
    have hsave : ∀ mm : GameManager, mm.saveGameState.game_grid = mm.game_grid :=
      fun _ => rfl
    rw [hsave]
    rcases checkEndStates_occupied
        { m with game_grid := (if m.game_grid.occupied_spaces = []
            then (m.game_grid.addFood (-1) (-1) c1).addFood (-1) (-1) c2
            else m.game_grid).movePlayer d } with hocc | hocc
    · rw [hocc]
      simp
    · rw [hocc]
      exact hmove

/-- C10 counterexample: the literal claim — the agent's own cell is never
marked in `occupied_grid` nor present in `occupied_spaces` — fails at the
reachable initial state whose placement draw is the agent's spawn cell
(0, 0): the food tile there marks the agent's own cell. -/
theorem c10_counterexample :
    Reachable (GameManager.initial (0, 0)) ∧
      (GameManager.initial (0, 0)).game_grid.player.tile.x = 0 ∧
      (GameManager.initial (0, 0)).game_grid.player.tile.y = 0 ∧
      (GameManager.initial (0, 0)).game_grid.occupied_grid 0 0 = 1 ∧
      (GridSpace.init 0 0).setFood ∈
        (GameManager.initial (0, 0)).game_grid.occupied_spaces := by
  exact ⟨Reachable.init (0, 0) validEmpty_reset0_00, rfl, rfl, by decide, by decide⟩

/-- C10 amended: the agent itself is never recorded in the occupancy
structures — every tile of `occupied_spaces` in every reachable state is a
food tile — and placement does treat the agent's cell as empty: food can
land on the very cell the agent stands on (as in the reachable state
exhibited), where it is then marked as food-occupancy until eaten. -/
theorem c10_agent_not_tracked :
    (∀ m, Reachable m →
      ∀ t ∈ m.game_grid.occupied_spaces, t.type = some "Food") ∧
    (∃ m, Reachable m ∧ ∃ t ∈ m.game_grid.occupied_spaces,
      t.x = m.game_grid.player.tile.x ∧ t.y = m.game_grid.player.tile.y) := by
  constructor
  · exact reachable_allFood
  · exact ⟨GameManager.initial (0, 0), Reachable.init (0, 0) validEmpty_reset0_00,
      (GridSpace.init 0 0).setFood, by decide, by decide⟩

/-- Witness for the amended C10: the food tile of the concrete reachable
initial state is indeed food-tagged. -/
theorem c10_agent_not_tracked_witness :
    GridSpace.type ((GridSpace.init 0 0).setFood) = some "Food" :=
  c10_agent_not_tracked.1 (GameManager.initial (0, 0))
    (Reachable.init (0, 0) validEmpty_reset0_00) ((GridSpace.init 0 0).setFood) (by decide)

/-- Push a sequence of snapshots: for each listed grid, install it as the
current grid and call `saveGameState` (one push per tick in the source). -/
def pushSeq (gs : List GameGrid) (m : GameManager) : GameManager :=
  gs.foldl (fun acc g => GameManager.saveGameState { acc with game_grid := g }) m

/-- The observable simulation state the round-trip claim compares: agent
position, energy, food count, score, and the food positions. -/
def managerView (m : GameManager) : ℤ × ℤ × ℤ × ℤ × ℤ × List (ℤ × ℤ) :=
  (m.game_grid.player.tile.x, m.game_grid.player.tile.y,
   m.game_grid.player.energy, m.game_grid.player.food_eaten,
   m.game_grid.player.score,
   (m.game_grid.occupied_spaces.filter
     (fun t => decide (t.type = some "Food"))).map (fun t => (t.x, t.y)))

/-- The data a snapshot captured, in the same shape. -/
def stateView (s : GameState) : ℤ × ℤ × ℤ × ℤ × ℤ × List (ℤ × ℤ) :=
  (s.player_loc_x, s.player_loc_y, s.player_energy, s.player_food_eaten,
   s.player_score, s.foods_loc)

/-- Pushing at most capacity-many snapshots evicts nothing: the history is
the pushed snapshots in order. -/
theorem pushSeq_states (gs : List GameGrid) : ∀ (m : GameManager),
    m.game_states.length + gs.length ≤ MAX_SAVED_GAME_STATES →
    (pushSeq gs m).game_states = m.game_states ++ gs.map GameState.ofGrid := by
  induction gs with
  | nil =>
    intro m _
    simp [pushSeq]
  | cons g rest ih =>
    intro m h
    have hlen : ¬ (MAX_SAVED_GAME_STATES ≤ m.game_states.length) := by
      simp only [List.length_cons] at h
      omega
    have hsave : (GameManager.saveGameState { m with game_grid := g }).game_states
        = m.game_states ++ [GameState.ofGrid g] := by
      simp [GameManager.saveGameState, hlen]
    have hstep : pushSeq (g :: rest) m
        = pushSeq rest (GameManager.saveGameState { m with game_grid := g }) := rfl
    rw [hstep, ih _ (by
      rw [hsave]
      simp only [List.length_append, List.length_cons, List.length_nil] at *
      omega)]
    rw [hsave, List.append_assoc]
    simp

/-- Re-adding a list of in-range food positions to a grid appends exactly
the corresponding food tiles (the placement fallback never fires) and
leaves the player alone. -/
theorem addFood_foldl_spec (foods : List (ℤ × ℤ)) : ∀ (g : GameGrid),
    (∀ p ∈ foods, 0 ≤ p.1 ∧ p.1 ≤ GAME_GRID_WIDTH ∧
      0 ≤ p.2 ∧ p.2 ≤ GAME_GRID_HEIGHT) →
    g.occupied_spaces.length + foods.length ≤ 100 →
    ((foods.foldl (fun g p => g.addFood p.1 p.2 (0, 0)) g).occupied_spaces =
        g.occupied_spaces ++
          foods.map (fun p => (GridSpace.init p.1 p.2).setFood)) ∧
    (foods.foldl (fun g p => g.addFood p.1 p.2 (0, 0)) g).player = g.player := by
  induction foods with
  | nil =>
    intro g _ _
    simp
  | cons p rest ih =>
    intro g hb hlen
    have hcap : ¬ (NUM_SPACES ≤ g.occupied_spaces.length) := by
      simp only [NUM_SPACES, List.length_cons] at *
      omega
    obtain ⟨hb1, hb2, hb3, hb4⟩ := hb p (List.mem_cons_self p rest)
    have hin : ¬ (p.1 < 0 ∨ GAME_GRID_WIDTH < p.1 ∨ p.2 < 0 ∨
        GAME_GRID_HEIGHT < p.2) := by
      simp only [GAME_GRID_WIDTH, GAME_GRID_HEIGHT] at *
      push_neg
      omega
    have hstep : g.addFood p.1 p.2 (0, 0)
        = g.addTile ((GridSpace.init p.1 p.2).setFood) := by
      simp [GameGrid.addFood, genTile, hcap, hin]
    have hlen2 : (g.addTile ((GridSpace.init p.1 p.2).setFood)).occupied_spaces.length
        + rest.length ≤ 100 := by
      simp only [GameGrid.addTile, List.length_append, List.length_cons,
        List.length_nil] at *
      omega
    obtain ⟨h1, h2⟩ := ih (g.addTile ((GridSpace.init p.1 p.2).setFood))
      (fun q hq => hb q (List.mem_cons_of_mem p hq)) hlen2
    rw [List.foldl_cons, hstep]
    refine ⟨?_, ?_⟩
    · rw [h1]
      simp [GameGrid.addTile]
    · rw [h2]
      rfl

/-- Turning positions into food tiles and reading the food positions back
is the identity. -/
theorem foods_roundtrip (l : List (ℤ × ℤ)) :
    ((l.map (fun p => (GridSpace.init p.1 p.2).setFood)).filter
        (fun t => decide (t.type = some "Food"))).map (fun t => (t.x, t.y)) = l := by
  induction l with
  | nil => rfl
  | cons q qs ih =>
    have hd : ((GridSpace.init q.1 q.2).setFood).type = some "Food" := rfl
    simp [List.filter_cons, hd, ih]
    rfl

/-- Restoring a snapshot with in-range food positions reproduces exactly
the captured view: fresh player carrying the saved position and counters,
and precisely the saved food positions. -/
theorem restore_view (m : GameManager) (s : GameState)
    (hb : ∀ p ∈ s.foods_loc, 0 ≤ p.1 ∧ p.1 ≤ GAME_GRID_WIDTH ∧
      0 ≤ p.2 ∧ p.2 ≤ GAME_GRID_HEIGHT)
    (hlen : s.foods_loc.length ≤ 100) :
    managerView (m.restoreGameState s) = stateView s := by
  obtain ⟨h1, h2⟩ := addFood_foldl_spec s.foods_loc
    { GameGrid.reset0 with player := s.restorePlayer } hb
    (by simpa [GameGrid.reset0] using hlen)
  simp only [GameManager.restoreGameState, managerView, stateView]
  rw [h1, h2]
  exact congrArg (fun l => (s.player_loc_x, s.player_loc_y, s.player_energy,
    s.player_food_eaten, s.player_score, l)) (foods_roundtrip s.foods_loc)

/-- Rewinding by one less than the history length truncates to the first
snapshot and restores it. -/
theorem rewind_to_first (m : GameManager) (s1 : GameState) (rest : List GameState)
    (h : m.game_states = s1 :: rest) (hr : rest ≠ []) :
    m.rewindGameState (m.game_states.length - 1) =
      some (GameManager.restoreGameState { m with game_states := [s1] } s1) := by
  have hr1 : 1 ≤ rest.length := List.length_pos.mpr hr
  have hc1 : ¬ (m.game_states.length ≤ 1) := by
    rw [h]
    simp only [List.length_cons]
    omega
  have hc2 : ¬ (m.game_states.length ≤ m.game_states.length - 1) := by
    rw [h]
    simp only [List.length_cons]
    omega
  have hc3 : ¬ (m.game_states.length - 1 = 0) := by
    rw [h]
    simp only [List.length_cons]
    omega
  simp only [GameManager.rewindGameState]
  rw [if_neg hc1, if_neg hc2, if_neg hc3, h]
  rw [show (s1 :: rest).length - ((s1 :: rest).length - 1) = 1 from by
    simp only [List.length_cons]
    omega]
  simp [List.take_succ_cons]

/-- C9: pushing `N` snapshots (`2 ≤ N ≤` capacity) onto an empty history
and rewinding `N - 1` restores precisely the view the first pushed snapshot
captured — agent position, energy, food count, score, and food positions
(restoration rebuilds the state from the snapshot's pure data, so the pure
embedding shares no structure with the history).  In-range food positions
are assumed, as every snapshot captured from a real grid satisfies. -/
theorem c9_rewind_roundtrip (gs : List GameGrid) (m0 : GameManager) (N : ℕ)
    (h0 : m0.game_states = []) (hN : gs.length = N) (h2 : 2 ≤ N)
    (hcap : N ≤ MAX_SAVED_GAME_STATES)
    (hbounds : ∀ g1 ∈ gs.head?,
      (∀ p ∈ (GameState.ofGrid g1).foods_loc,
        0 ≤ p.1 ∧ p.1 ≤ GAME_GRID_WIDTH ∧ 0 ≤ p.2 ∧ p.2 ≤ GAME_GRID_HEIGHT) ∧
      (GameState.ofGrid g1).foods_loc.length ≤ 100) :
    ((pushSeq gs m0).rewindGameState (N - 1)).map managerView =
      gs.head?.map (fun g1 => stateView (GameState.ofGrid g1)) := by
  cases gs with
  | nil =>
    simp only [List.length_nil] at hN
    omega
  | cons g1 rest =>
    have hrest : rest ≠ [] := by
      intro hnil
      rw [hnil] at hN
      simp only [List.length_cons, List.length_nil] at hN
      omega
    have hstates : (pushSeq (g1 :: rest) m0).game_states
        = GameState.ofGrid g1 :: rest.map GameState.ofGrid := by
      rw [pushSeq_states (g1 :: rest) m0 (by rw [h0]; simpa [hN] using hcap)]
      rw [h0]
      simp
    have hmaprest : rest.map GameState.ofGrid ≠ [] := by
      simpa using hrest
    have hlen : (pushSeq (g1 :: rest) m0).game_states.length = N := by
      rw [hstates]
      simpa using hN
    have hrw := rewind_to_first (pushSeq (g1 :: rest) m0) (GameState.ofGrid g1)
      (rest.map GameState.ofGrid) hstates hmaprest
    rw [hlen] at hrw
    rw [hrw]
    obtain ⟨hb, hl⟩ := hbounds g1 rfl
    exact congrArg some (restore_view _ _ hb hl)

/-- Witness for C9: two concrete pushed snapshots — first a grid with one
food at (3, 4) — rewound by one, restoring the first capture's view. -/
theorem c9_rewind_roundtrip_witness :
    ((pushSeq [GameGrid.reset0.addFood 3 4 (0, 0), GameGrid.reset0]
        (GameManager.initial (0, 0))).rewindGameState 1).map managerView =
      some (0, 0, 100, 0, 0, [((3 : ℤ), (4 : ℤ))]) := by
  have h := c9_rewind_roundtrip
    [GameGrid.reset0.addFood 3 4 (0, 0), GameGrid.reset0]
    (GameManager.initial (0, 0)) 2 rfl rfl (by norm_num)
    (by norm_num [MAX_SAVED_GAME_STATES])
    (by
      intro g1 hg1
      have hg : GameGrid.reset0.addFood 3 4 (0, 0) = g1 := by
        have h2 := Option.mem_def.mp hg1
        simpa using h2
      subst hg
      exact ⟨by decide, by decide⟩)
  exact h.trans (by rfl)

end MouseFood
